import Mathlib

/-!
Shallow embedding of the record-reconciliation core of the `cio` repository.

Modelling conventions:
* Rust `String` becomes Lean `String`; `is_empty()` becomes equality with `""`.
* `DateTime<Utc>` / `NaiveDate` timestamps are opaque to the merge logic
  (they are only copied and compared for equality/order), so they are
  modelled as `Int`; `Option<DateTime<Utc>>` becomes `Option Int`.
* `f64` (the `cost` field) is only ever copied and compared with `0.0`
  by the reconciliation code, so it is modelled as `Rat` with zero-value `0`.
* `airtable_api::Record<T>` becomes `AirtableRecord` below: an opaque
  string identifier, an optional creation timestamp, and the typed fields.
* Fallible remote calls are modelled by `Except String`; a Rust
  `.unwrap()` on a failed call (a panic) propagates the error.
-/

namespace Cio

/-- Embedding of `airtable_api::Record<T>`: opaque id, creation timestamp,
and the typed field bag. -/
structure AirtableRecord (α : Type) where
  id : String
  created_time : Option Int
  fields : α
deriving DecidableEq, Repr

/-- The action a reconciliation run decides on: create a fresh remote record
from the derived fields, do nothing, or update an existing remote record
(the whole record that is sent to `update_records`). -/
inductive ReconcileAction (α : Type) where
  | create (fields : α)
  | noOp
  | update (record : AirtableRecord α)
deriving DecidableEq, Repr

/-- Embedding of `NewInboundShipment` / `InboundShipment`
(src/cio/src/shipments.rs, lines 37-63). -/
structure InboundShipment where
  tracking_number : String
  carrier : String
  tracking_link : String
  oxide_tracking_link : String
  tracking_status : String
  shipped_time : Option Int
  delivered_time : Option Int
  eta : Option Int
  messages : String
  name : String
  notes : String
deriving DecidableEq, Repr

/-- Embedding of `InboundShipment::update_airtable_record`
(src/cio/src/shipments.rs, lines 68-93): `self` is the freshly derived
record, `record` the existing Airtable record's fields.  Each field is
written at most once and read only before being written, so the sequential
Rust mutations equal this simultaneous record update. -/
def InboundShipment.update_airtable_record (self record : InboundShipment) : InboundShipment :=
  { self with
    carrier := if self.carrier = "" then record.carrier else self.carrier
    tracking_number := if self.tracking_number = "" then record.tracking_number else self.tracking_number
    tracking_link := if self.tracking_link = "" then record.tracking_link else self.tracking_link
    tracking_status := if self.tracking_status = "" then record.tracking_status else self.tracking_status
    shipped_time := if self.shipped_time = none then record.shipped_time else self.shipped_time
    delivered_time := if self.delivered_time = none then record.delivered_time else self.delivered_time
    eta := if self.eta = none then record.eta else self.eta
    notes := if self.notes = "" then record.notes else self.notes }

/-- Embedding of the outbound `Shipment` struct
(src/cio/src/shipments.rs, lines 174-237). -/
structure Shipment where
  name : String
  contents : String
  street_1 : String
  street_2 : String
  city : String
  state : String
  zipcode : String
  country : String
  address_formatted : String
  email : String
  phone : String
  status : String
  carrier : String
  tracking_number : String
  tracking_link : String
  oxide_tracking_link : String
  tracking_status : String
  label_link : String
  reprint_label : Bool
  resend_email_to_recipient : Bool
  cost : Rat
  schedule_pickup : Bool
  pickup_date : Option Int
  created_time : Int
  shipped_time : Option Int
  delivered_time : Option Int
  eta : Option Int
  shippo_id : String
  messages : String
  notes : String
  geocode_cache : String
deriving DecidableEq, Repr

/-- Embedding of `Shipment::update_airtable_record`
(src/cio/src/shipments.rs, lines 950-992): `self` is the freshly derived
shipment, `record` the existing Airtable record's fields.
`geocode_cache` is copied from the remote record unconditionally; every
other touched field is filled from the remote record only when the derived
value is the type's zero-value. -/
def Shipment.update_airtable_record (self record : Shipment) : Shipment :=
  { self with
    geocode_cache := record.geocode_cache
    status := if self.status = "" then record.status else self.status
    carrier := if self.carrier = "" then record.carrier else self.carrier
    tracking_number := if self.tracking_number = "" then record.tracking_number else self.tracking_number
    tracking_link := if self.tracking_link = "" then record.tracking_link else self.tracking_link
    tracking_status := if self.tracking_status = "" then record.tracking_status else self.tracking_status
    label_link := if self.label_link = "" then record.label_link else self.label_link
    pickup_date := if self.pickup_date = none then record.pickup_date else self.pickup_date
    shipped_time := if self.shipped_time = none then record.shipped_time else self.shipped_time
    delivered_time := if self.delivered_time = none then record.delivered_time else self.delivered_time
    shippo_id := if self.shippo_id = "" then record.shippo_id else self.shippo_id
    eta := if self.eta = none then record.eta else self.eta
    cost := if self.cost = 0 then record.cost else self.cost
    notes := if self.notes = "" then record.notes else self.notes }

/-- Embedding of `Shipment::update_in_airtable`
(src/cio/src/shipments.rs, lines 786-806): merge the derived shipment with
the existing record's fields; if the merged result equals the existing
fields, return early (no write); otherwise send the existing record with
its fields replaced by the merged result (id and created_time untouched). -/
def Shipment.update_in_airtable (self : Shipment) (existing_record : AirtableRecord Shipment) : ReconcileAction Shipment :=
  let merged := self.update_airtable_record existing_record.fields
  if merged = existing_record.fields then ReconcileAction.noOp
  else ReconcileAction.update { existing_record with fields := merged }

/-- Insertion into a map ordered by an integer key, with the replacement
semantics of `BTreeMap::insert`: an existing entry with the same key is
overwritten by the newly inserted value. -/
def btreeInsert {α : Type} (k : Int) (v : α) : List (Int × α) → List (Int × α)
  | [] => [(k, v)]
  | (k', v') :: rest =>
    if k < k' then (k, v) :: (k', v') :: rest
    else if k = k' then (k, v) :: rest
    else (k', v') :: btreeInsert k v rest

/-- Lookup by key in an integer-keyed assoc list (`BTreeMap::get` for the
map built by `btreeInsert`). -/
def btreeGet {α : Type} (m : List (Int × α)) (k : Int) : Option α :=
  (m.find? (fun kv => kv.1 = k)).map (fun kv => kv.2)

/-- Embedding of the matcher inside `Shipment::create_or_update_in_airtable`
(src/cio/src/shipments.rs, lines 811-833): the listing is folded into a
`BTreeMap` keyed by `created_time` ALONE — half the natural key — so later
listing entries overwrite earlier ones with the same `created_time`; the
map is then scanned in key order for an entry whose key equals the derived
shipment's `created_time` and whose record's `email` equals the derived
shipment's `email`. -/
def Shipment.find_match (self : Shipment) (listing : List (AirtableRecord Shipment)) : Option (AirtableRecord Shipment) :=
  let records := listing.foldl (fun m r => btreeInsert r.fields.created_time r m) []
  (records.find? (fun kv => self.created_time = kv.1 && self.email = kv.2.fields.email)).map (fun kv => kv.2)

/-- Embedding of `Shipment::create_or_update_in_airtable`
(src/cio/src/shipments.rs, lines 811-833): if a matching record is found,
run `update_in_airtable` against it; otherwise `push_to_airtable`, i.e.
create a fresh record from the derived fields. -/
def Shipment.create_or_update_in_airtable (self : Shipment) (listing : List (AirtableRecord Shipment)) : ReconcileAction Shipment :=
  match self.find_match listing with
  | some record => self.update_in_airtable record
  | none => ReconcileAction.create self

/-- Embedding of `NewSwagInventoryItem` / `SwagInventoryItem`
(src/cio/src/swag_inventory.rs, lines 22-42). -/
structure SwagInventoryItem where
  name : String
  size : String
  current_stock : Int
  item : String
  barcode : String
  link_to_item : List String
deriving DecidableEq, Repr

/-- Embedding of `SwagInventoryItem::update_airtable_record`
(src/cio/src/swag_inventory.rs, lines 47-55; the source spells the binder
`reccord` in the condition, an obvious typo for `record`): `link_to_item`
is copied from the existing record only when the existing record's list is
non-empty, and `name` is then cleared to the empty string because it is a
formula computed inside Airtable. -/
def SwagInventoryItem.update_airtable_record (self record : SwagInventoryItem) : SwagInventoryItem :=
  let s := if record.link_to_item ≠ [] then { self with link_to_item := record.link_to_item } else self
  { s with name := "" }

/-- Embedding of `NewAuthLogin` as read back from and written to the
Airtable auth-logins table (src/cio/src/auth_logins.rs, lines 66-85 list
its fields). -/
structure NewAuthLogin where
  user_id : String
  name : String
  nickname : String
  username : String
  email : String
  email_verified : Bool
  picture : String
  company : String
  blog : String
  phone : String
  phone_verified : Bool
  locale : String
  login_provider : String
  created_at : Int
  updated_at : Int
  last_login : Int
  last_ip : String
  logins_count : Int
deriving DecidableEq, Repr

/-- Insertion into a string-keyed map with the replacement semantics of
`BTreeMap::insert`: an existing entry with the same key is overwritten. -/
def assocInsert {α : Type} (k : String) (v : α) : List (String × α) → List (String × α)
  | [] => [(k, v)]
  | (k', v') :: rest =>
    if k = k' then (k, v) :: rest else (k', v') :: assocInsert k v rest

/-- Lookup in the string-keyed map (`BTreeMap::get`). -/
def assocGet {α : Type} (m : List (String × α)) (k : String) : Option α :=
  (m.find? (fun kv => kv.1 = k)).map (fun kv => kv.2)

/-- Embedding of the map construction in `update_users_in_airtable`
(src/cio/src/auth_logins.rs, lines 161-168): the Airtable listing is folded
into a `BTreeMap` keyed by each record's `user_id`; a later listing entry
with the same `user_id` overwrites an earlier one. -/
def authLoginsMap (records : List (AirtableRecord NewAuthLogin)) : List (String × AirtableRecord NewAuthLogin) :=
  records.foldl (fun m r => assocInsert r.fields.user_id r m) []

/-- Embedding of the per-user body of `update_users_in_airtable`
(src/cio/src/auth_logins.rs, lines 173-207): look the derived user up in
the map by `user_id`; when found, skip the write if the derived user equals
the record's fields, otherwise update the found record (same id) with the
derived fields; when not found, create. -/
def update_user_in_airtable (logins : List (String × AirtableRecord NewAuthLogin)) (user : NewAuthLogin) : ReconcileAction NewAuthLogin :=
  match assocGet logins user.user_id with
  | some r =>
    if user = r.fields then ReconcileAction.noOp
    else ReconcileAction.update { r with fields := user }
  | none => ReconcileAction.create user

/-- Embedding of the Airtable-record-id assignment in
`refresh_inbound_shipments` (src/cio/src/shipments.rs, lines 1183-1185):
the locally stored record id is set from the matched record's id only when
it is still empty. -/
def inboundAssignAirtableId (current recordId : String) : String :=
  if current = "" then recordId else current

/-- Embedding of the batch loop of `refresh_airtable_shipments`
(src/cio/src/shipments.rs, lines 1143-1153) over the outcomes of each
record's remote write: every Airtable create/update call is `.unwrap()`ed
(shipments.rs lines 778, 804), so a failed call panics and the loop stops
there; records after the failure are not processed. -/
def runBatch : List (Except String Unit) → Except String Nat
  | [] => Except.ok 0
  | Except.ok _ :: rest =>
    match runBatch rest with
    | Except.ok n => Except.ok (n + 1)
    | Except.error e => Except.error e
  | Except.error e :: _ => Except.error e

/-- Number of records of the batch that the loop of
`refresh_airtable_shipments` actually processes: it advances through the
leading successful outcomes and stops at the first panicking one. -/
def processedCount : List (Except String Unit) → Nat
  | [] => 0
  | Except.ok _ :: rest => processedCount rest + 1
  | Except.error _ :: _ => 0

/-- A shipment with every field at its type's zero-value. -/
def shipmentZero : Shipment :=
  { name := ""
    contents := ""
    street_1 := ""
    street_2 := ""
    city := ""
    state := ""
    zipcode := ""
    country := ""
    address_formatted := ""
    email := ""
    phone := ""
    status := ""
    carrier := ""
    tracking_number := ""
    tracking_link := ""
    oxide_tracking_link := ""
    tracking_status := ""
    label_link := ""
    reprint_label := false
    resend_email_to_recipient := false
    cost := 0
    schedule_pickup := false
    pickup_date := none
    created_time := 0
    shipped_time := none
    delivered_time := none
    eta := none
    shippo_id := ""
    messages := ""
    notes := ""
    geocode_cache := "" }

/-- The derived shipment of the spec's concrete scenario:
tracking_number "1Z9", carrier "UPS", blank status and notes. -/
def derivedScenario : Shipment :=
  { shipmentZero with tracking_number := "1Z9", carrier := "UPS" }

/-- The existing remote shipment of the spec's concrete scenario:
same natural key, status "Delivered", manually entered notes. -/
def existingScenario : Shipment :=
  { shipmentZero with
    tracking_number := "1Z9"
    carrier := "UPS"
    status := "Delivered"
    notes := "Fragile — handle with care" }

/-- An Airtable record holding the existing scenario shipment. -/
def existingScenarioRecord : AirtableRecord Shipment :=
  { id := "recShip1", created_time := some 5, fields := existingScenario }

/-- A derived swag-inventory item that carries a non-default
`link_to_item` value. -/
def swagDerived : SwagInventoryItem :=
  { name := "Widget"
    size := "M"
    current_stock := 3
    item := "Widget"
    barcode := "123456"
    link_to_item := ["derived-link"] }

/-- An existing remote swag-inventory item whose `link_to_item` is empty
and whose display name was computed by the remote store. -/
def swagExisting : SwagInventoryItem :=
  { name := "Widget (M)"
    size := "M"
    current_stock := 3
    item := "Widget"
    barcode := "123456"
    link_to_item := [] }

/-- An auth login with every field at its type's zero-value. -/
def authLoginZero : NewAuthLogin :=
  { user_id := ""
    name := ""
    nickname := ""
    username := ""
    email := ""
    email_verified := false
    picture := ""
    company := ""
    blog := ""
    phone := ""
    phone_verified := false
    locale := ""
    login_provider := ""
    created_at := 0
    updated_at := 0
    last_login := 0
    last_ip := ""
    logins_count := 0 }

/-- First of two remote auth-login records sharing the natural key
`user_id = "auth0|u1"`. -/
def authDup1 : AirtableRecord NewAuthLogin :=
  { id := "recA"
    created_time := some 1
    fields := { authLoginZero with user_id := "auth0|u1", company := "first" } }

/-- Second of two remote auth-login records sharing the natural key
`user_id = "auth0|u1"`. -/
def authDup2 : AirtableRecord NewAuthLogin :=
  { id := "recB"
    created_time := some 2
    fields := { authLoginZero with user_id := "auth0|u1", company := "second" } }

/-- A derived shipment whose non-blank `status` makes the merged record
differ from the all-blank existing record. -/
def queuedDerived : Shipment :=
  { shipmentZero with status := "Queued", email := "who@example.com" }

/-- An existing remote record holding an all-blank shipment. -/
def blankExistingRecord : AirtableRecord Shipment :=
  { id := "recBlank", created_time := some 3, fields := shipmentZero }

/-- A derived auth login sharing the duplicated natural key but with
fields that differ from both duplicate remote records. -/
def authDupDerived : NewAuthLogin :=
  { authLoginZero with user_id := "auth0|u1", company := "third" }

/-- A derived shipment whose natural key (created_time, email) matches
both duplicate remote shipment records below. -/
def shipDupDerived : Shipment :=
  { shipmentZero with created_time := 7, email := "dup@example.com", status := "Queued" }

/-- First of two remote shipment records sharing the natural key
(created_time 7, email "dup@example.com"). -/
def shipDup1 : AirtableRecord Shipment :=
  { id := "recD1"
    created_time := some 1
    fields := { shipmentZero with created_time := 7, email := "dup@example.com" } }

/-- Second of two remote shipment records sharing the natural key
(created_time 7, email "dup@example.com"). -/
def shipDup2 : AirtableRecord Shipment :=
  { id := "recD2"
    created_time := some 2
    fields := { shipmentZero with
      created_time := 7, email := "dup@example.com", notes := "second" } }

/-- A remote shipment record that shares created_time 7 with the duplicate
records above but carries a DIFFERENT email: because the shipment map is
keyed by `created_time` alone, listing it after the duplicates evicts them
from the map slot. -/
def shipDupEvictor : AirtableRecord Shipment :=
  { id := "recD3"
    created_time := some 3
    fields := { shipmentZero with created_time := 7, email := "other@example.com" } }

end Cio

namespace Webhooky

/-- Embedding of the repository object of a push event: only its `name`
is consulted by the handler. -/
structure GithubRepo where
  name : String
deriving DecidableEq, Repr

/-- Embedding of `GitHubCommit` (src/webhooky/src/main.rs, lines 231-257);
`author` is opaque to the handler and kept as a plain string. -/
structure GitHubCommit where
  id : String
  timestamp : Int
  message : String
  author : String
  url : String
  distinct : Bool
  added : List String
  modified : List String
  removed : List String
deriving DecidableEq, Repr

/-- Embedding of `GitHubWebhook` (src/webhooky/src/main.rs, lines 185-226);
only the fields the handler reads are kept. -/
structure GitHubWebhook where
  action : String
  repository : Option GithubRepo
  refv : String
  before : String
  after : String
  commits : List GitHubCommit
deriving DecidableEq, Repr

/-- Model of Rust `str::starts_with` on the underlying character lists;
written by structural recursion so that concrete instances evaluate. -/
def startsWithAux : List Char → List Char → Bool
  | [], _ => true
  | _ :: _, [] => false
  | p :: ps, c :: cs => p == c && startsWithAux ps cs

/-- A string starts with `dir` when `dir`'s characters are a prefix of
its characters. -/
def strStartsWith (s dir : String) : Bool :=
  startsWithAux dir.data s.data

/-- Embedding of the free function `filter` (src/webhooky/src/main.rs,
lines 276-285): push each file whose name starts with `dir` onto the
accumulator, preserving order. -/
def filter (files : List String) (dir : String) : List String :=
  files.foldl (fun in_dir file => if strStartsWith file dir then in_dir ++ [file] else in_dir) []

/-- Embedding of `GitHubCommit::filter_files_by_path`
(src/webhooky/src/main.rs, lines 262-266). -/
def GitHubCommit.filter_files_by_path (c : GitHubCommit) (dir : String) : GitHubCommit :=
  { c with
    added := filter c.added dir
    modified := filter c.modified dir
    removed := filter c.removed dir }

/-- Embedding of `GitHubCommit::has_changed_files`
(src/webhooky/src/main.rs, lines 269-273). -/
def GitHubCommit.has_changed_files (c : GitHubCommit) : Bool :=
  !c.added.isEmpty || !c.modified.isEmpty || !c.removed.isEmpty

/-- Repeatedly strip `pat` from the start of the string; fuel-indexed
helper for `trimStartMatches`. -/
def trimGo (pat : String) : Nat → String → String
  | 0, s => s
  | n + 1, s =>
    if pat ≠ "" ∧ strStartsWith s pat then trimGo pat n (s.drop pat.length) else s

/-- Embedding of Rust `str::trim_start_matches`: repeatedly remove the
pattern from the front of the string. -/
def trimStartMatches (s pat : String) : String :=
  trimGo pat s.length s

/-- Outcome of one webhook delivery: a panic (the handler `.unwrap()`s the
absent repository object), an early-return acknowledgement (HTTP accepted,
no automation), or reaching the final automation section with the computed
branch name (also HTTP accepted). -/
inductive WebhookOutcome where
  | panicked
  | rejected (msg : String)
  | proceeded (branch : String)
deriving DecidableEq, Repr

/-- Embedding of `listen_github_webhooks` (src/webhooky/src/main.rs,
lines 73-144): non-`push` actions, pushes to repositories other than
`rfd`, empty commit lists, a non-distinct first commit, and a first commit
with no changed file under `rfd/` are acknowledged and dropped; a push
event with no repository object panics on `.unwrap()`; otherwise the
handler proceeds with the branch name trimmed from the ref. -/
def listen_github_webhooks (event : GitHubWebhook) : WebhookOutcome :=
  if event.action ≠ "push" then
    WebhookOutcome.rejected "not a push event"
  else
    match event.repository with
    | none => WebhookOutcome.panicked
    | some repo =>
      if repo.name ≠ "rfd" then WebhookOutcome.rejected "push event to another repo"
      else
        match event.commits with
        | [] => WebhookOutcome.rejected "push event has no commits"
        | commit :: _ =>
          if !commit.distinct then WebhookOutcome.rejected "commit is not distinct"
          else
            let commit := commit.filter_files_by_path "rfd/"
            if !commit.has_changed_files then
              WebhookOutcome.rejected "no changes to the rfd directory"
            else
              WebhookOutcome.proceeded (trimStartMatches event.refv "refs/heads/")

/-- A distinct pushed commit whose changed files all live outside the
`rfd/` directory. -/
def commitElsewhere : GitHubCommit :=
  { id := "c1"
    timestamp := 10
    message := "tweak readme"
    author := "alice"
    url := ""
    distinct := true
    added := []
    modified := ["README.md"]
    removed := [] }

/-- A distinct pushed commit that adds a file under the `rfd/`
directory. -/
def commitRfd : GitHubCommit :=
  { id := "c2"
    timestamp := 11
    message := "add rfd 0001"
    author := "bob"
    url := ""
    distinct := true
    added := ["rfd/0001/README.adoc"]
    modified := []
    removed := [] }

/-- A push event to the `rfd` repository whose second commit (but not the
first) changes files under `rfd/`. -/
def eventSecondCommitRfd : GitHubWebhook :=
  { action := "push"
    repository := some { name := "rfd" }
    refv := "refs/heads/main"
    before := "b0"
    after := "a0"
    commits := [commitElsewhere, commitRfd] }

end Webhooky

namespace Cio

/-- Filling a blank twice is the same as filling it once. -/
theorem ite_fill_idem {α : Type} (p : Prop) [Decidable p] (a b : α) :
    (if p then (if p then b else a) else a) = if p then b else a := by
  by_cases h : p <;> simp [h]

/-- The shipment merge is idempotent in its remote argument: merging the
derived shipment against an already-merged result changes nothing. -/
theorem shipment_merge_idem (d e : Shipment) :
    d.update_airtable_record (d.update_airtable_record e) = d.update_airtable_record e := by
  cases d; cases e
  simp [Shipment.update_airtable_record, ite_fill_idem]

/-- Merging a shipment against itself changes nothing. -/
theorem shipment_merge_self (d : Shipment) : d.update_airtable_record d = d := by
  cases d
  simp [Shipment.update_airtable_record]

/-- Lookup after a map insertion: the inserted key returns the inserted
value, every other key is unaffected. -/
theorem assocGet_insert {α : Type} (k k' : String) (v : α) (m : List (String × α)) :
    assocGet (assocInsert k' v m) k = if k' = k then some v else assocGet m k := by
  induction m with
  | nil => by_cases h : k' = k <;> simp [assocInsert, assocGet, List.find?, h]
  | cons kv rest ih =>
    obtain ⟨k2, v2⟩ := kv
    by_cases h : k' = k2
    · subst h
      by_cases h2 : k' = k <;> simp [assocInsert, assocGet, List.find?, h2]
    · by_cases h2 : k2 = k
      · subst h2
        simp [assocInsert, h, assocGet, List.find?]
      · simp only [assocInsert, if_neg h]
        simp only [assocGet, List.find?] at *
        simp [h2, ih]

/-- Looking a key up in the map built by folding `assocInsert` over a
listing returns the LAST listing entry with that key (later insertions
overwrite earlier ones), falling back to the initial map. -/
theorem foldl_insert_get {α : Type} (key : α → String) :
    ∀ (records : List α) (m : List (String × α)) (k : String),
      assocGet (records.foldl (fun m r => assocInsert (key r) r m) m) k
        = ((records.reverse.find? (fun r => key r = k)).orElse (fun _ => assocGet m k)) := by
  intro records
  induction records with
  | nil => intro m k; simp
  | cons r rest ih =>
    intro m k
    simp only [List.foldl_cons, List.reverse_cons]
    rw [ih]
    rw [List.find?_append]
    cases hfind : rest.reverse.find? (fun r => key r = k) with
    | some x => simp [Option.orElse, hfind, List.find?]
    | none =>
      by_cases h : key r = k
      · simp [Option.orElse, List.find?, h, assocGet_insert]
      · simp [Option.orElse, List.find?, h, assocGet_insert]

/-- Lookup after a `btreeInsert`: the inserted key returns the inserted
value, every other key is unaffected. -/
theorem btreeGet_insert {α : Type} (k k' : Int) (v : α) (m : List (Int × α)) :
    btreeGet (btreeInsert k' v m) k = if k' = k then some v else btreeGet m k := by
  induction m with
  | nil => by_cases h : k' = k <;> simp [btreeInsert, btreeGet, List.find?, h]
  | cons kv rest ih =>
    obtain ⟨k2, v2⟩ := kv
    by_cases hlt : k' < k2
    · simp only [btreeInsert, if_pos hlt]
      by_cases h : k' = k <;> simp [btreeGet, List.find?, h]
    · by_cases heq : k' = k2
      · subst heq
        by_cases h : k' = k <;> simp [btreeInsert, hlt, btreeGet, List.find?, h]
      · simp only [btreeInsert, if_neg hlt, if_neg heq]
        by_cases h2 : k2 = k
        · subst h2
          simp [btreeGet, List.find?, heq]
        · simp only [btreeGet, List.find?] at ih ⊢
          simp [h2, ih]

/-- Every entry of `btreeInsert k v m` carries the inserted key or a key
already in `m`. -/
theorem btreeInsert_fst_mem {α : Type} (k : Int) (v : α) :
    ∀ (m : List (Int × α)) (x : Int × α), x ∈ btreeInsert k v m →
      x.1 = k ∨ x.1 ∈ m.map Prod.fst := by
  intro m
  induction m with
  | nil =>
    intro x hx
    simp [btreeInsert] at hx
    simp [hx]
  | cons kv rest ih =>
    obtain ⟨k2, v2⟩ := kv
    intro x hx
    by_cases hlt : k < k2
    · simp only [btreeInsert, if_pos hlt] at hx
      rcases List.mem_cons.mp hx with rfl | hx
      · simp
      · rcases List.mem_cons.mp hx with rfl | hx
        · simp
        · exact Or.inr (List.mem_map.mpr ⟨x, List.mem_cons_of_mem _ hx, rfl⟩)
    · by_cases heq : k = k2
      · simp only [btreeInsert, if_neg hlt, if_pos heq] at hx
        rcases List.mem_cons.mp hx with rfl | hx
        · simp
        · exact Or.inr (List.mem_map.mpr ⟨x, List.mem_cons_of_mem _ hx, rfl⟩)
      · simp only [btreeInsert, if_neg hlt, if_neg heq] at hx
        rcases List.mem_cons.mp hx with rfl | hx
        · simp
        · rcases ih x hx with h | h
          · exact Or.inl h
          · refine Or.inr ?_
            rw [List.map_cons]
            exact List.mem_cons_of_mem _ h

/-- `btreeInsert` preserves strict ordering of the keys (so the map's keys
stay pairwise distinct). -/
theorem btreeInsert_pairwise {α : Type} (k : Int) (v : α) :
    ∀ (m : List (Int × α)), m.Pairwise (fun a b => a.1 < b.1) →
      (btreeInsert k v m).Pairwise (fun a b => a.1 < b.1) := by
  intro m
  induction m with
  | nil => intro _; simp [btreeInsert]
  | cons kv rest ih =>
    obtain ⟨k2, v2⟩ := kv
    intro hp
    rw [List.pairwise_cons] at hp
    obtain ⟨hk2, hrest⟩ := hp
    by_cases hlt : k < k2
    · simp only [btreeInsert, if_pos hlt]
      rw [List.pairwise_cons]
      constructor
      · intro x hx
        rcases List.mem_cons.mp hx with rfl | hx
        · exact hlt
        · exact lt_trans hlt (hk2 x hx)
      · rw [List.pairwise_cons]
        exact ⟨hk2, hrest⟩
    · by_cases heq : k = k2
      · simp only [btreeInsert, if_neg hlt, if_pos heq]
        rw [List.pairwise_cons]
        refine ⟨fun x hx => ?_, hrest⟩
        have := hk2 x hx
        simp only [] at this ⊢
        rw [heq]
        exact this
      · have hgt : k2 < k := by
          rcases lt_trichotomy k k2 with h | h | h
          · exact absurd h hlt
          · exact absurd h heq
          · exact h
        simp only [btreeInsert, if_neg hlt, if_neg heq]
        rw [List.pairwise_cons]
        constructor
        · intro x hx
          rcases btreeInsert_fst_mem k v rest x hx with h | h
          · show k2 < x.1
            rw [h]
            exact hgt
          · obtain ⟨b, hb, hfst⟩ := List.mem_map.mp h
            have hlt2 := hk2 b hb
            show k2 < x.1
            rw [← hfst]
            exact hlt2
        · exact ih hrest

/-- Folding a listing into the map with `btreeInsert` keeps the keys
strictly ordered. -/
theorem foldl_btreeInsert_pairwise {α : Type} (key : α → Int) :
    ∀ (records : List α) (m : List (Int × α)),
      m.Pairwise (fun a b => a.1 < b.1) →
      (records.foldl (fun m r => btreeInsert (key r) r m) m).Pairwise
        (fun a b => a.1 < b.1) := by
  intro records
  induction records with
  | nil => intro m hm; exact hm
  | cons r rest ih =>
    intro m hm
    exact ih _ (btreeInsert_pairwise (key r) r m hm)

/-- Looking a key up in the map built by folding `btreeInsert` over a
listing returns the LAST listing entry with that key (later insertions
overwrite earlier ones), falling back to the initial map. -/
theorem foldl_btreeInsert_get {α : Type} (key : α → Int) :
    ∀ (records : List α) (m : List (Int × α)) (k : Int),
      btreeGet (records.foldl (fun m r => btreeInsert (key r) r m) m) k
        = ((records.reverse.find? (fun r => key r = k)).orElse
            (fun _ => btreeGet m k)) := by
  intro records
  induction records with
  | nil => intro m k; simp
  | cons r rest ih =>
    intro m k
    simp only [List.foldl_cons, List.reverse_cons]
    rw [ih]
    rw [List.find?_append]
    cases hfind : rest.reverse.find? (fun r => key r = k) with
    | some x => simp [Option.orElse, hfind, List.find?]
    | none =>
      by_cases h : key r = k
      · simp [Option.orElse, List.find?, h, btreeGet_insert]
      · simp [Option.orElse, List.find?, h, btreeGet_insert]

/-- On a map with strictly ordered (hence distinct) keys, scanning for an
entry with a given key AND a condition on its value is the same as looking
the key up and testing the condition on the unique value found. -/
theorem find_compound_of_sorted {α : Type} (q : α → Bool) (k : Int) :
    ∀ (m : List (Int × α)), m.Pairwise (fun a b => a.1 < b.1) →
      ((m.find? (fun kv => k = kv.1 && q kv.2)).map (fun kv => kv.2))
        = (btreeGet m k).bind (fun v => if q v then some v else none) := by
  intro m
  induction m with
  | nil => intro _; simp [btreeGet]
  | cons kv rest ih =>
    obtain ⟨k1, v1⟩ := kv
    intro hp
    rw [List.pairwise_cons] at hp
    obtain ⟨hk1, hrest⟩ := hp
    by_cases hk : k = k1
    · subst hk
      by_cases hq : q v1
      · simp [List.find?, btreeGet, hq]
      · have hnone : rest.find? (fun kv => k = kv.1 && q kv.2) = none := by
          rw [List.find?_eq_none]
          intro kv hkv
          have hlt := hk1 kv hkv
          simp [ne_of_lt hlt]
        simp [List.find?, hq, hnone, btreeGet]
    · have hne : ¬(k1 = k) := fun h => hk h.symm
      simp only [List.find?, btreeGet, hk, hne, decide_eq_true_eq, Bool.false_and,
        decide_False]
      simp only [btreeGet] at ih
      rw [← ih hrest]

/-- Full characterization of the shipment matcher: the candidate is the
LAST listing record whose `created_time` equals the derived shipment's
(the map slot keeps only the last one, whatever its email), and it is
returned exactly when its email also matches; otherwise no match is
found. -/
theorem shipment_find_match_eq (d : Shipment) (listing : List (AirtableRecord Shipment)) :
    d.find_match listing
      = (listing.reverse.find? (fun r => r.fields.created_time = d.created_time)).bind
          (fun r => if d.email = r.fields.email then some r else none) := by
  simp only [Shipment.find_match]
  rw [find_compound_of_sorted (fun r : AirtableRecord Shipment => d.email = r.fields.email)
      d.created_time _
      (foldl_btreeInsert_pairwise (fun r : AirtableRecord Shipment => r.fields.created_time)
        listing [] (by simp))]
  rw [foldl_btreeInsert_get (fun r : AirtableRecord Shipment => r.fields.created_time)
      listing [] d.created_time]
  cases hfind : listing.reverse.find? (fun r => r.fields.created_time = d.created_time) with
  | none => simp [Option.orElse, btreeGet]
  | some r => simp [Option.orElse]

end Cio

namespace Webhooky

/-- The accumulator-passing loop of `filter` computes `List.filter` of the
given predicate, appended to the accumulator. -/
theorem filter_go (dir : String) :
    ∀ (files : List String) (acc : List String),
      files.foldl (fun in_dir file => if strStartsWith file dir then in_dir ++ [file] else in_dir) acc
        = acc ++ files.filter (fun f => strStartsWith f dir) := by
  intro files
  induction files with
  | nil => intro acc; simp
  | cons f rest ih =>
    intro acc
    simp only [List.foldl_cons, List.filter_cons]
    by_cases h : strStartsWith f dir
    · simp [h, ih]
    · simp [h, ih]

/-- `filter` keeps exactly the files that start with the directory
string, in their original order. -/
theorem filter_eq (files : List String) (dir : String) :
    filter files dir = files.filter (fun f => strStartsWith f dir) := by
  simpa [filter] using filter_go dir files []

/-- A filtered list is non-empty exactly when some original element
satisfies the predicate. -/
theorem filter_not_isEmpty_iff (l : List String) (p : String → Bool) :
    (!(l.filter p).isEmpty) = true ↔ ∃ f ∈ l, p f = true := by
  have key : l.filter p ≠ [] ↔ ∃ f ∈ l, p f = true := by
    rw [ne_eq, List.filter_eq_nil_iff]
    push_neg
    simp
  constructor
  · intro h
    apply key.mp
    intro hnil
    rw [hnil] at h
    simp at h
  · intro h
    have hne := key.mpr h
    cases hfil : l.filter p with
    | nil => exact absurd hfil hne
    | cons a as => simp [hfil]

end Webhooky

namespace Cio

/-- Claim C1: for every fill-if-blank field of the inbound-shipment and
outbound-shipment entities, the merge leaves the field equal to the
existing remote value exactly when the derived value is the field type's
zero-value, and equal to the derived value otherwise. -/
theorem fill_if_blank_fields_follow_derived_blankness :
    ∀ (self record : InboundShipment) (s r : Shipment),
      ((self.update_airtable_record record).carrier
          = if self.carrier = "" then record.carrier else self.carrier)
      ∧ ((self.update_airtable_record record).tracking_number
          = if self.tracking_number = "" then record.tracking_number else self.tracking_number)
      ∧ ((self.update_airtable_record record).tracking_link
          = if self.tracking_link = "" then record.tracking_link else self.tracking_link)
      ∧ ((self.update_airtable_record record).tracking_status
          = if self.tracking_status = "" then record.tracking_status else self.tracking_status)
      ∧ ((self.update_airtable_record record).shipped_time
          = if self.shipped_time = none then record.shipped_time else self.shipped_time)
      ∧ ((self.update_airtable_record record).delivered_time
          = if self.delivered_time = none then record.delivered_time else self.delivered_time)
      ∧ ((self.update_airtable_record record).eta
          = if self.eta = none then record.eta else self.eta)
      ∧ ((self.update_airtable_record record).notes
          = if self.notes = "" then record.notes else self.notes)
      ∧ ((s.update_airtable_record r).status = if s.status = "" then r.status else s.status)
      ∧ ((s.update_airtable_record r).carrier = if s.carrier = "" then r.carrier else s.carrier)
      ∧ ((s.update_airtable_record r).tracking_number
          = if s.tracking_number = "" then r.tracking_number else s.tracking_number)
      ∧ ((s.update_airtable_record r).tracking_link
          = if s.tracking_link = "" then r.tracking_link else s.tracking_link)
      ∧ ((s.update_airtable_record r).tracking_status
          = if s.tracking_status = "" then r.tracking_status else s.tracking_status)
      ∧ ((s.update_airtable_record r).label_link
          = if s.label_link = "" then r.label_link else s.label_link)
      ∧ ((s.update_airtable_record r).pickup_date
          = if s.pickup_date = none then r.pickup_date else s.pickup_date)
      ∧ ((s.update_airtable_record r).shipped_time
          = if s.shipped_time = none then r.shipped_time else s.shipped_time)
      ∧ ((s.update_airtable_record r).delivered_time
          = if s.delivered_time = none then r.delivered_time else s.delivered_time)
      ∧ ((s.update_airtable_record r).shippo_id
          = if s.shippo_id = "" then r.shippo_id else s.shippo_id)
      ∧ ((s.update_airtable_record r).eta = if s.eta = none then r.eta else s.eta)
      ∧ ((s.update_airtable_record r).cost = if s.cost = 0 then r.cost else s.cost)
      ∧ ((s.update_airtable_record r).notes = if s.notes = "" then r.notes else s.notes) := by
  intro self record s r
  cases self; cases record; cases s; cases r
  simp [InboundShipment.update_airtable_record, Shipment.update_airtable_record]

/-- Claim C2, counterexample: for the swag-inventory entity the
remote-owned fields do NOT always equal the existing remote value — with
an existing record whose `link_to_item` is empty, the merged record keeps
the derived `link_to_item`, and the merged `name` is the empty string
rather than the existing display name. -/
theorem swag_remote_owned_counterexample :
    (swagDerived.update_airtable_record swagExisting).link_to_item ≠ swagExisting.link_to_item
    ∧ (swagDerived.update_airtable_record swagExisting).name ≠ swagExisting.name
    ∧ (swagDerived.update_airtable_record swagExisting).link_to_item = ["derived-link"]
    ∧ (swagDerived.update_airtable_record swagExisting).name = "" := by
  refine ⟨by decide, by decide, by decide, by decide⟩

/-- Claim C2, amended: the outbound shipment's remote-owned
`geocode_cache` is always copied from the existing record; the
swag-inventory `link_to_item` is copied from the existing record only when
the existing value is non-empty (otherwise the derived value is kept), and
the swag-inventory `name` is always set to the empty string, not to the
existing value. -/
theorem remote_owned_fields_amended :
    ∀ (d e : Shipment) (sd se : SwagInventoryItem),
      (d.update_airtable_record e).geocode_cache = e.geocode_cache
      ∧ (sd.update_airtable_record se).link_to_item
          = (if se.link_to_item ≠ [] then se.link_to_item else sd.link_to_item)
      ∧ (sd.update_airtable_record se).name = "" := by
  intro d e sd se
  refine ⟨rfl, ?_, ?_⟩
  · by_cases h : se.link_to_item = [] <;>
      simp [SwagInventoryItem.update_airtable_record, h]
  · by_cases h : se.link_to_item = [] <;>
      simp [SwagInventoryItem.update_airtable_record, h]

/-- Claim C3, counterexample: in the spec's concrete scenario the blank
derived `status` does NOT overwrite the existing "Delivered" — the code
classifies `status` as fill-if-blank, so the merged status is "Delivered",
not the empty string. -/
theorem shipment_status_overwrite_counterexample :
    ¬((derivedScenario.update_airtable_record existingScenario).status = "") := by
  decide

/-- Claim C3, amended: the fields the shipment merge never touches (name,
contents, address fields, email, phone, oxide_tracking_link, the three
boolean flags, created_time, messages) always take the derived value; in
the concrete scenario the merged record keeps tracking_number "1Z9",
carrier "UPS" and notes "Fragile — handle with care", but `status` is
fill-if-blank in the code, so the blank derived status is filled from the
existing record and becomes "Delivered". -/
theorem always_overwrite_fields_amended :
    (∀ (d e : Shipment),
      (d.update_airtable_record e).name = d.name
      ∧ (d.update_airtable_record e).contents = d.contents
      ∧ (d.update_airtable_record e).street_1 = d.street_1
      ∧ (d.update_airtable_record e).street_2 = d.street_2
      ∧ (d.update_airtable_record e).city = d.city
      ∧ (d.update_airtable_record e).state = d.state
      ∧ (d.update_airtable_record e).zipcode = d.zipcode
      ∧ (d.update_airtable_record e).country = d.country
      ∧ (d.update_airtable_record e).address_formatted = d.address_formatted
      ∧ (d.update_airtable_record e).email = d.email
      ∧ (d.update_airtable_record e).phone = d.phone
      ∧ (d.update_airtable_record e).oxide_tracking_link = d.oxide_tracking_link
      ∧ (d.update_airtable_record e).reprint_label = d.reprint_label
      ∧ (d.update_airtable_record e).resend_email_to_recipient = d.resend_email_to_recipient
      ∧ (d.update_airtable_record e).schedule_pickup = d.schedule_pickup
      ∧ (d.update_airtable_record e).created_time = d.created_time
      ∧ (d.update_airtable_record e).messages = d.messages)
    ∧ (derivedScenario.update_airtable_record existingScenario).status = "Delivered"
    ∧ (derivedScenario.update_airtable_record existingScenario).notes
        = "Fragile — handle with care"
    ∧ (derivedScenario.update_airtable_record existingScenario).tracking_number = "1Z9"
    ∧ (derivedScenario.update_airtable_record existingScenario).carrier = "UPS" := by
  refine ⟨?_, by decide, by decide, by decide, by decide⟩
  intro d e
  cases d; cases e
  simp [Shipment.update_airtable_record]

/-- Claim C5: reconciliation is idempotent — when the remote record's
fields already equal the result the first run wrote (either a merge
against an older remote state or the freshly created derived record), a
second run against them is a no-op and issues no write. -/
theorem reconcile_second_run_noop :
    ∀ (d : Shipment) (e : AirtableRecord Shipment) (i : String) (ct : Option Int),
      d.update_in_airtable { e with fields := d.update_airtable_record e.fields }
          = ReconcileAction.noOp
      ∧ d.update_in_airtable { id := i, created_time := ct, fields := d }
          = ReconcileAction.noOp := by
  intro d e i ct
  constructor
  · simp [Shipment.update_in_airtable, shipment_merge_idem]
  · simp [Shipment.update_in_airtable, shipment_merge_self]

/-- Claim C4: with a matching existing remote record, the reconciler
compares the merged record to the existing fields by full structural
equality — equal means no write, different means an update carrying the
existing record's identifier — for both the shipment path and the
auth-logins path. -/
theorem reconcile_noop_or_update_decision :
    ∀ (d : Shipment) (e : AirtableRecord Shipment) (user : NewAuthLogin)
      (logins : List (String × AirtableRecord NewAuthLogin)) (r : AirtableRecord NewAuthLogin),
      (d.update_in_airtable e = ReconcileAction.noOp
          ↔ d.update_airtable_record e.fields = e.fields)
      ∧ (d.update_airtable_record e.fields ≠ e.fields →
          d.update_in_airtable e
            = ReconcileAction.update { e with fields := d.update_airtable_record e.fields })
      ∧ (assocGet logins user.user_id = some r →
          (update_user_in_airtable logins user = ReconcileAction.noOp ↔ user = r.fields)
          ∧ (user ≠ r.fields →
              update_user_in_airtable logins user
                = ReconcileAction.update { r with fields := user })) := by
  intro d e user logins r
  refine ⟨?_, ?_, ?_⟩
  · by_cases h : d.update_airtable_record e.fields = e.fields <;>
      simp [Shipment.update_in_airtable, h]
  · intro h
    simp [Shipment.update_in_airtable, h]
  · intro hget
    unfold update_user_in_airtable
    rw [hget]
    by_cases h : user = r.fields <;> simp [h]

/-- Witness for claim C4's theorem at concrete inputs: the derived
shipment with status "Queued" differs from the blank existing record, so
the decision is an update of that record; likewise for the auth login
against the second duplicate record. -/
theorem reconcile_noop_or_update_decision_witness :
    Shipment.update_in_airtable queuedDerived blankExistingRecord
      = ReconcileAction.update
          { blankExistingRecord with
            fields := Shipment.update_airtable_record queuedDerived blankExistingRecord.fields }
    ∧ update_user_in_airtable (authLoginsMap [authDup1, authDup2]) authDupDerived
      = ReconcileAction.update { authDup2 with fields := authDupDerived } :=
  ⟨(reconcile_noop_or_update_decision queuedDerived blankExistingRecord authDupDerived
      (authLoginsMap [authDup1, authDup2]) authDup2).2.1 (by decide),
   ((reconcile_noop_or_update_decision queuedDerived blankExistingRecord authDupDerived
      (authLoginsMap [authDup1, authDup2]) authDup2).2.2 (by decide)).2 (by decide)⟩

/-- Claim C6: an update decided by the reconciler sends the existing
record with only its fields replaced — the opaque identifier and the
creation timestamp are unchanged — and the inbound-shipment sync only
assigns an Airtable record id when none is stored yet, always reusing the
matched record's id, never inventing one. -/
theorem update_preserves_remote_identity :
    ∀ (d : Shipment) (e r : AirtableRecord Shipment) (cur rid : String),
      (d.update_in_airtable e = ReconcileAction.update r →
        r.id = e.id ∧ r.created_time = e.created_time
          ∧ r.fields = d.update_airtable_record e.fields)
      ∧ (cur ≠ "" → inboundAssignAirtableId cur rid = cur)
      ∧ (inboundAssignAirtableId cur rid = cur ∨ inboundAssignAirtableId cur rid = rid) := by
  intro d e r cur rid
  refine ⟨?_, ?_, ?_⟩
  · intro h
    by_cases hc : d.update_airtable_record e.fields = e.fields
    · simp [Shipment.update_in_airtable, hc] at h
    · simp only [Shipment.update_in_airtable, if_neg hc] at h
      have h' := h.symm
      injection h' with h2
      rw [h2]
      exact ⟨rfl, rfl, rfl⟩
  · intro h
    simp [inboundAssignAirtableId, h]
  · by_cases h : cur = "" <;> simp [inboundAssignAirtableId, h]

/-- Witness for claim C6's theorem at concrete inputs: the update decided
for the queued derived shipment keeps the existing record's id and
creation timestamp, and an already-assigned inbound record id survives a
sync against a record with a different id. -/
theorem update_preserves_remote_identity_witness :
    ({ blankExistingRecord with
        fields := Shipment.update_airtable_record queuedDerived blankExistingRecord.fields
      } : AirtableRecord Shipment).id = blankExistingRecord.id
    ∧ inboundAssignAirtableId "recOld" "recNew" = "recOld" :=
  ⟨((update_preserves_remote_identity queuedDerived blankExistingRecord
      { blankExistingRecord with
        fields := Shipment.update_airtable_record queuedDerived blankExistingRecord.fields }
      "recOld" "recNew").1 (by decide)).1,
   (update_preserves_remote_identity queuedDerived blankExistingRecord
      blankExistingRecord "recOld" "recNew").2.1 (by decide)⟩

/-- Claim C7, counterexample: with two remote auth-login records sharing
the natural key "auth0|u1", the matcher does NOT return the record the
listing returns first — the map lookup yields the second record. -/
theorem duplicate_key_first_match_counterexample :
    authDup1 ≠ authDup2
    ∧ authDup1.fields.user_id = authDup2.fields.user_id
    ∧ ¬(assocGet (authLoginsMap [authDup1, authDup2]) "auth0|u1" = some authDup1)
    ∧ assocGet (authLoginsMap [authDup1, authDup2]) "auth0|u1" = some authDup2 := by
  refine ⟨by decide, by decide, by decide, by decide⟩

/-- Claim C7, amended: first-match does not hold; each matcher keeps, per
map key, only the LAST listing record with that key.  The auth matcher's
map is keyed by the full natural key `user_id`, so it returns the last
listing record with the derived key.  The shipment matcher's map is keyed
by `created_time` ALONE (half the natural key): the candidate considered
is the last listing record sharing the derived `created_time`, and it is
returned exactly when its email also matches — so among full-natural-key
duplicates the last one wins, unless an even later record shares the
`created_time` with a different email, in which case no match is found at
all. -/
theorem duplicate_key_last_match_wins :
    (∀ (records : List (AirtableRecord NewAuthLogin)) (k : String),
      assocGet (authLoginsMap records) k
        = records.reverse.find? (fun r => r.fields.user_id = k))
    ∧ ∀ (d : Shipment) (listing : List (AirtableRecord Shipment)),
        d.find_match listing
          = (listing.reverse.find? (fun r => r.fields.created_time = d.created_time)).bind
              (fun r => if d.email = r.fields.email then some r else none) := by
  constructor
  · intro records k
    rw [authLoginsMap,
      foldl_insert_get (fun r : AirtableRecord NewAuthLogin => r.fields.user_id) records [] k]
    cases records.reverse.find? (fun r => r.fields.user_id = k) <;>
      simp [Option.orElse, assocGet, List.find?]
  · intro d listing
    exact shipment_find_match_eq d listing

/-- Witness for claim C7's amended theorem at concrete inputs: with two
full-natural-key duplicates the matcher returns the second (last) one, and
appending a third record that shares only the `created_time` with a
different email evicts them both, so no match is found. -/
theorem duplicate_key_last_match_wins_witness :
    Shipment.find_match shipDupDerived [shipDup1, shipDup2] = some shipDup2
    ∧ Shipment.find_match shipDupDerived [shipDup1, shipDup2, shipDupEvictor] = none := by
  constructor
  · rw [duplicate_key_last_match_wins.2 shipDupDerived [shipDup1, shipDup2]]
    decide
  · rw [duplicate_key_last_match_wins.2 shipDupDerived [shipDup1, shipDup2, shipDupEvictor]]
    decide

/-- Claim C8, counterexample: a failed Airtable write for the first record
of a two-record batch aborts the loop — the second record is never
processed, so the batch does NOT continue after a per-record failure. -/
theorem batch_continues_counterexample :
    processedCount [Except.error "airtable write failed", Except.ok ()] ≠ 2
    ∧ processedCount [Except.error "airtable write failed", Except.ok ()] = 0
    ∧ runBatch [Except.error "airtable write failed", Except.ok ()]
        = Except.error "airtable write failed" := by
  refine ⟨by decide, by decide, rfl⟩

/-- Claim C8, amended: every remote write in the batch loop is unwrapped,
so the first failing record panics and aborts the whole batch — exactly
the records before the first failure are processed, and the batch result
is that failure. -/
theorem batch_aborts_at_first_failure :
    ∀ (n : Nat) (e : String) (rest : List (Except String Unit)),
      runBatch (List.replicate n (Except.ok ()) ++ Except.error e :: rest) = Except.error e
      ∧ processedCount (List.replicate n (Except.ok ()) ++ Except.error e :: rest) = n := by
  intro n e rest
  induction n with
  | zero => simp [runBatch, processedCount]
  | succ k ih =>
    rw [List.replicate_succ, List.cons_append]
    constructor
    · show runBatch (Except.ok () :: _) = _
      rw [runBatch, ih.1]
    · show processedCount (Except.ok () :: _) = _
      rw [processedCount, ih.2]

end Cio

namespace Webhooky

/-- Claim C9, counterexample: a push event to the `rfd` repository whose
second commit changes a file under `rfd/` is dropped by the handler, which
examines only the first pushed commit — so automation does not proceed for
every push whose commits include changes under the configured path. -/
theorem webhook_filter_counterexample :
    eventSecondCommitRfd.action = "push"
    ∧ eventSecondCommitRfd.repository = some { name := "rfd" }
    ∧ (∃ c ∈ eventSecondCommitRfd.commits, ∃ f ∈ c.added, strStartsWith f "rfd/" = true)
    ∧ ∀ b, listen_github_webhooks eventSecondCommitRfd ≠ WebhookOutcome.proceeded b := by
  refine ⟨rfl, rfl, ⟨commitRfd, by decide, "rfd/0001/README.adoc", by decide, by decide⟩, ?_⟩
  intro b h
  have hev : listen_github_webhooks eventSecondCommitRfd
      = WebhookOutcome.rejected "no changes to the rfd directory" := by decide
  rw [hev] at h
  exact WebhookOutcome.noConfusion h

/-- Claim C9, amended: the handler proceeds exactly when the event is a
`push` to the repository named "rfd" with a nonempty commit list whose
FIRST commit is distinct and has a changed file under `rfd/`; the branch
ref is never filtered (it is only trimmed for logging); and a push event
carrying no repository object panics instead of being acknowledged. -/
theorem webhook_filter_amended :
    ∀ (event : GitHubWebhook),
      ((∃ b, listen_github_webhooks event = WebhookOutcome.proceeded b)
        ↔ (event.action = "push"
            ∧ (∃ repo, event.repository = some repo ∧ repo.name = "rfd")
            ∧ ∃ c rest, event.commits = c :: rest ∧ c.distinct = true
                ∧ (c.filter_files_by_path "rfd/").has_changed_files = true))
      ∧ (∀ b, listen_github_webhooks event = WebhookOutcome.proceeded b →
          b = trimStartMatches event.refv "refs/heads/")
      ∧ (listen_github_webhooks event = WebhookOutcome.panicked
          ↔ event.action = "push" ∧ event.repository = none) := by
  intro event
  obtain ⟨act, repo, refv, bef, aft, commits⟩ := event
  by_cases ha : act = "push"
  · subst ha
    cases repo with
    | none => simp [listen_github_webhooks]
    | some repo =>
      by_cases hr : repo.name = "rfd"
      · cases commits with
        | nil => simp [listen_github_webhooks, hr]
        | cons c rest =>
          by_cases hd : c.distinct
          · by_cases hch : (c.filter_files_by_path "rfd/").has_changed_files
            · refine ⟨?_, ?_, ?_⟩
              · simp [listen_github_webhooks, hr, hd, hch]
              · intro b h
                simp [listen_github_webhooks, hr, hd, hch] at h
                exact h.symm
              · simp [listen_github_webhooks, hr, hd, hch]
            · simp [listen_github_webhooks, hr, hd, hch]
          · simp [listen_github_webhooks, hr, hd]
      · simp [listen_github_webhooks, hr]
  · simp [listen_github_webhooks, ha]

/-- Claim C10: filtering a commit's files by a directory string keeps, in
each of the added, modified and removed lists, exactly the original
elements that start with that string, in order; and the filtered commit
has changed files exactly when some original element of one of the three
lists starts with the string. -/
theorem filter_files_by_path_spec :
    ∀ (c : GitHubCommit) (dir : String),
      (c.filter_files_by_path dir).added = c.added.filter (fun f => strStartsWith f dir)
      ∧ (c.filter_files_by_path dir).modified = c.modified.filter (fun f => strStartsWith f dir)
      ∧ (c.filter_files_by_path dir).removed = c.removed.filter (fun f => strStartsWith f dir)
      ∧ ((c.filter_files_by_path dir).has_changed_files = true
          ↔ ∃ f, (f ∈ c.added ∨ f ∈ c.modified ∨ f ∈ c.removed)
              ∧ strStartsWith f dir = true) := by
  intro c dir
  refine ⟨?_, ?_, ?_, ?_⟩
  · simp [GitHubCommit.filter_files_by_path, filter_eq]
  · simp [GitHubCommit.filter_files_by_path, filter_eq]
  · simp [GitHubCommit.filter_files_by_path, filter_eq]
  · cases c
    simp only [GitHubCommit.filter_files_by_path, GitHubCommit.has_changed_files, filter_eq]
    rw [Bool.or_eq_true, Bool.or_eq_true,
      filter_not_isEmpty_iff, filter_not_isEmpty_iff, filter_not_isEmpty_iff]
    constructor
    · rintro ((⟨f, hm, hp⟩ | ⟨f, hm, hp⟩) | ⟨f, hm, hp⟩)
      exacts [⟨f, Or.inl hm, hp⟩, ⟨f, Or.inr (Or.inl hm), hp⟩, ⟨f, Or.inr (Or.inr hm), hp⟩]
    · rintro ⟨f, (hm | hm | hm), hp⟩
      exacts [Or.inl (Or.inl ⟨f, hm, hp⟩), Or.inl (Or.inr ⟨f, hm, hp⟩), Or.inr ⟨f, hm, hp⟩]

end Webhooky
